import Mathlib

/-!
Shallow embedding of `aurora_di.py` (the aurora-di dependency-injection
engine) and proofs of the specification claims about it.

The embedding models:
  * Python runtime values relevant to the library (`Val`), covering the four
    dependency-definition classes (`Reference`, `Value`, `List`, `Dict`),
    strings, attribute-bearing plain objects, and opaque values;
  * `_normalize_dependency` (normalization of raw values to definitions);
  * `resolve` of each definition class, instrumented with the number of
    attribute lookups performed by `Reference.resolve`;
  * `inject` (positional-argument resolution, factory call, attribute
    assignment), instrumented with the list of factory invocations and the
    attribute writes performed;
  * the descriptor produced by `create_descriptor`, with its per-accessor
    cache, modelled as explicit state passed through `__get__`.

Exceptions are modelled with `Except`. Object identity, where a claim
depends on it, is modelled with explicit numeric identity tags carried by
mutable objects (`Val.obj`, `Val.vlist`, `Val.vdict`) and owning instances.
-/

namespace AuroraDI

/-- Exceptions of the embedded code. `referenceNotFound` is the
AttributeError raised when a segment of a Reference path is missing (the
spec's `ReferenceNotFound`); `typeError` is Python's TypeError (raised by
`inject` when the two-parameter lambda in the attribute-normalization `map`
is applied to single tuple items); `attributeError` is the AttributeError
raised by calling `.resolve` on a value that has no such method (never
reached after normalization); `other n` stands for an arbitrary exception
raised by a target factory. -/
inductive Err where
  | referenceNotFound : Err
  | typeError : Err
  | attributeError : Err
  | other : Nat → Err
deriving DecidableEq, Repr

/-- Python values as the library sees them.

  * `str s` — a Python string (normalized to a `Reference`);
  * `base n` — an opaque value with no attributes and no `resolve` method
    (numbers, plain data); `n` only distinguishes values;
  * `obj id attrs` — an attribute-bearing object with identity tag `id` and
    named attributes `attrs` (containers, factory products); no `resolve`
    method;
  * `ref path` — an instance of class `Reference` storing `self.reference`;
  * `value v` — an instance of class `Value` storing `self.value`;
  * `vlist id entries` — an instance of class `List` (a `Dependency` that is
    also a Python list) with identity tag `id`;
  * `vdict id pairs` — an instance of class `Dict` with identity tag `id`. -/
inductive Val where
  | str : String → Val
  | base : Nat → Val
  | obj : Nat → List (String × Val) → Val
  | ref : String → Val
  | value : Val → Val
  | vlist : Nat → List Val → Val
  | vdict : Nat → List (String × Val) → Val
deriving Repr

/-- `hasattr(dependency, 'resolve')`: exactly the four definition classes
expose a `resolve` method. -/
def hasResolve : Val → Bool
  | .ref _ => true
  | .value _ => true
  | .vlist _ _ => true
  | .vdict _ _ => true
  | _ => false

/-- `isinstance(dependency, str)`. -/
def isStr : Val → Bool
  | .str _ => true
  | _ => false

/-- `_normalize_dependency(dependency)`: values exposing `resolve` pass
through unchanged; strings become `Reference(dependency)`; everything else
becomes `Value(dependency)`. -/
def _normalize_dependency (dependency : Val) : Val :=
  if hasResolve dependency then dependency
  else match dependency with
    | .str s => .ref s
    | other => .value other

/-- Association-list lookup for object attributes. -/
def lookupAttr : List (String × Val) → String → Option Val
  | [], _ => none
  | (k, v) :: rest, name => if k = name then some v else lookupAttr rest name

/-- `getattr(target, part)`: attribute lookup. Only `obj` values carry
attributes in this model; lookup on anything else fails (AttributeError). -/
def getattr : Val → String → Option Val
  | .obj _ attrs, name => lookupAttr attrs name
  | _, _ => none

/-- `self.reference.split('.')` on the character list: splitting on `'.'`,
Python semantics (adjacent dots yield empty pieces). -/
def splitDotChars : List Char → List (List Char)
  | [] => [[]]
  | c :: rest =>
    if c = '.' then [] :: splitDotChars rest
    else match splitDotChars rest with
      | [] => [[c]]
      | piece :: pieces => (c :: piece) :: pieces

/-- `self.reference.split('.')`. -/
def splitDot (s : String) : List String :=
  (splitDotChars s.toList).map (fun cs => String.mk cs)

/-- The loop of `Reference.resolve`: `for part in parts: target =
getattr(target, part)`. The `Nat` accumulates the number of attribute
lookups performed (one per path segment), used to express the claims about
"Reference lookups". A missing segment raises `referenceNotFound`. -/
def refWalk : List String → Val → Nat → Except Err (Val × Nat)
  | [], target, n => .ok (target, n)
  | part :: parts, target, n =>
    match getattr target part with
    | some next => refWalk parts next (n + 1)
    | none => .error .referenceNotFound

mutual

/-- `dependency.resolve(container)` for each definition class, returning the
resolved value together with the number of Reference attribute lookups
performed. `Reference.resolve` walks the dotted path from the container;
`Value.resolve` returns the stored payload; `List.resolve` and
`Dict.resolve` normalize and resolve every entry in place and return the
same object (same identity tag). Calling `resolve` on a value that has no
such method is an AttributeError (unreachable after normalization). -/
def dresolve : Val → Val → Except Err (Val × Nat)
  | .ref reference, container => refWalk (splitDot reference) container 0
  | .value v, _ => .ok (v, 0)
  | .vlist id entries, container =>
    match resolveEach entries container with
    | .error e => .error e
    | .ok (entries', n) => .ok (.vlist id entries', n)
  | .vdict id pairs, container =>
    match resolveKVs pairs container with
    | .error e => .error e
    | .ok (pairs', n) => .ok (.vdict id pairs', n)
  | _, _ => .error .attributeError

/-- The loop of `List.resolve` (and the element pipeline of `inject`'s
positional arguments): for each entry, `value = _normalize_dependency(value);
self[i] = value.resolve(container)`. The normalize-then-resolve composition
is written out by cases on the raw entry so that the recursion is
structural: an entry already exposing `resolve` resolves as itself; a string
resolves as the `Reference` it normalizes to; anything else resolves as the
`Value` wrapping it, i.e. to itself. `resolveOne_eq` below proves this equal
to `dresolve (_normalize_dependency entry)`. -/
def resolveEach : List Val → Val → Except Err (List Val × Nat)
  | [], _ => .ok ([], 0)
  | entry :: rest, container =>
    match
      (if hasResolve entry then dresolve entry container
       else match entry with
         | .str s => refWalk (splitDot s) container 0
         | other => .ok (other, 0)) with
    | .error e => .error e
    | .ok (v, n) =>
      match resolveEach rest container with
      | .error e => .error e
      | .ok (vs, m) => .ok (v :: vs, n + m)

/-- The loop of `Dict.resolve`: normalize and resolve every stored value in
place, keys untouched, same element order. -/
def resolveKVs : List (String × Val) → Val → Except Err (List (String × Val) × Nat)
  | [], _ => .ok ([], 0)
  | (key, entry) :: rest, container =>
    match
      (if hasResolve entry then dresolve entry container
       else match entry with
         | .str s => refWalk (splitDot s) container 0
         | other => .ok (other, 0)) with
    | .error e => .error e
    | .ok (v, n) =>
      match resolveKVs rest container with
      | .error e => .error e
      | .ok (kvs, m) => .ok ((key, v) :: kvs, n + m)

end

/-- `_normalize_dependency(raw).resolve(container)`: the per-element pipeline
shared by `List.resolve`, `Dict.resolve` and `inject`. -/
def resolveOne (raw : Val) (container : Val) : Except Err (Val × Nat) :=
  dresolve (_normalize_dependency raw) container

/-- The case split written out inside `resolveEach` is exactly the
normalize-then-resolve pipeline `_normalize_dependency(value).resolve(container)`
of the source. -/
theorem resolveEach_cons (entry : Val) (rest : List Val) (container : Val) :
    resolveEach (entry :: rest) container =
      match resolveOne entry container with
      | .error e => .error e
      | .ok (v, n) =>
        match resolveEach rest container with
        | .error e => .error e
        | .ok (vs, m) => .ok (v :: vs, n + m) := by
  cases entry <;> rfl

/-- Same for the loop of `Dict.resolve`. -/
theorem resolveKVs_cons (key : String) (entry : Val) (rest : List (String × Val))
    (container : Val) :
    resolveKVs ((key, entry) :: rest) container =
      match resolveOne entry container with
      | .error e => .error e
      | .ok (v, n) =>
        match resolveKVs rest container with
        | .error e => .error e
        | .ok (kvs, m) => .ok ((key, v) :: kvs, n + m) := by
  cases entry <;> rfl

/-- Outcome of one `inject(target_factory, container, *arg_spec, **attr_spec)`
call. `result` is its return value or the exception it raises;
`factoryCalls` records the argument list of every invocation of
`target_factory` (so `factoryCalls.length` is how many times the factory
ran); `setattrs` records the attribute writes performed on the target. -/
structure InjectResult where
  result : Except Err Val
  factoryCalls : List (List Val)
  setattrs : List (String × Val)
deriving Repr

/-- `inject(target_factory, container, *arg_spec, **attr_spec)`.

The source performs, in order:
  1. `arg_spec = map(_normalize_dependency, arg_spec)` — a lazy map, nothing
     runs yet;
  2. `attr_spec.update(map(lambda key, value: (key, _normalize_dependency(value)),
     attr_spec.items()))` — `map` is given ONE iterable, so it applies the
     two-parameter lambda to each `(key, value)` tuple as a single argument;
     forcing the map inside `dict.update` therefore raises
     `TypeError: missing 1 required positional argument` as soon as
     `attr_spec` has an item. With an empty `attr_spec` the map is empty and
     `update` does nothing;
  3. `args = list(map(lambda item: item.resolve(container), arg_spec))` —
     forces normalization and resolution of the positional definitions in
     order (an exception propagates before the factory is called);
  4. `target = target_factory(*args)`;
  5. `for key in list(attr_spec): setattr(target, key, attr_spec[key].resolve(container))`
     — on the only reachable path `attr_spec` is empty here, so no attribute
     write ever happens;
  6. `return target`.

The factory is modelled as a function from the positional argument list to
its result or the exception it raises. -/
def inject (target_factory : List Val → Except Err Val) (container : Val)
    (arg_spec : List Val) (attr_spec : List (String × Val)) : InjectResult :=
  if attr_spec.isEmpty then
    match resolveEach arg_spec container with
    | .error e => { result := .error e, factoryCalls := [], setattrs := [] }
    | .ok (args, _) =>
      match target_factory args with
      | .error e => { result := .error e, factoryCalls := [args], setattrs := [] }
      | .ok target => { result := .ok target, factoryCalls := [args], setattrs := [] }
  else
    { result := .error .typeError, factoryCalls := [], setattrs := [] }

/-- An owning class instance as seen by the descriptor of
`create_descriptor`. `iid` is the object's identity (`id(instance)`), and
doubles as the identity tag of the instance used as DI container
(`Val.obj iid attrs`). `key` is the dictionary key under which
`self.cache[instance]` stores the instance: Python dicts key by
`__hash__`/`__eq__`, which for classes with the default identity-based
equality coincides with identity (`key = iid`), while classes overriding
equality can give two distinct instances the same `key`. -/
structure Instance where
  iid : Nat
  key : Nat
  attrs : List (String × Val)

/-- Lookup in the descriptor's cache dictionary (`self.cache[instance]`). -/
def lookupCache : List (Nat × Val) → Nat → Option Val
  | [], _ => none
  | (k, v) :: rest, key => if k = key then some v else lookupCache rest key

/-- Mutable state of one descriptor object: its `self.cache` dictionary and
(instrumentation) the total number of factory invocations made through it. -/
structure DescState where
  cache : List (Nat × Val)
  factoryCount : Nat
deriving Repr

/-- What `Descriptor.__get__` returns: the descriptor object itself (class
access) or a resolved value (instance access). -/
inductive GetRes where
  | descriptor : GetRes
  | value : Val → GetRes
deriving Repr

/-- `Descriptor.__get__(self, instance, owner)` of the descriptor created by
`create_descriptor(target_factory, *arg_spec, **attr_spec)`:

  * `if instance is None: return self`;
  * `try: return self.cache[instance]` — a cache hit returns the stored
    object, no injection;
  * `except KeyError:` call `inject(target_factory, instance, *arg_spec,
    **attr_spec)` with the instance itself as container, store the result in
    `self.cache[instance]` and return it; if `inject` raises, nothing is
    stored and the exception propagates.

The factory is indexed by the number of invocations made so far, so that
distinct invocations may build distinct objects; `inject` calls it at most
once per `__get__`. -/
def descGet (target_factory : Nat → List Val → Except Err Val)
    (arg_spec : List Val) (attr_spec : List (String × Val))
    (inst : Option Instance) (st : DescState) :
    Except Err GetRes × DescState :=
  match inst with
  | none => (.ok .descriptor, st)
  | some i =>
    match lookupCache st.cache i.key with
    | some v => (.ok (.value v), st)
    | none =>
      let r := inject (target_factory st.factoryCount) (Val.obj i.iid i.attrs)
        arg_spec attr_spec
      match r.result with
      | .ok v =>
        (.ok (.value v),
         { cache := (i.key, v) :: st.cache,
           factoryCount := st.factoryCount + r.factoryCalls.length })
      | .error e =>
        (.error e,
         { cache := st.cache,
           factoryCount := st.factoryCount + r.factoryCalls.length })

/-- Claim C1 (code evidence): contrary to the claim, every call of `inject`
with at least one named raw argument raises `TypeError` before normalizing
anything, before calling the factory (no factory invocation is recorded) and
before assigning any attribute: the two-parameter lambda inside
`attr_spec.update(map(...))` is applied by `map` to each `(key, value)` item
as a single argument. -/
theorem inject_named_arg_raises_typeError
    (target_factory : List Val → Except Err Val) (container : Val)
    (arg_spec : List Val) (key : String) (raw : Val)
    (rest : List (String × Val)) :
    inject target_factory container arg_spec ((key, raw) :: rest) =
      { result := .error .typeError, factoryCalls := [], setattrs := [] } := rfl

/-- Claim C4: `_normalize_dependency` is a total pure function: a value that
exposes `resolve` is returned identically; a string `s` becomes a Reference
whose stored path equals `s`; every other value `v` becomes a Value whose
stored payload equals `v`. -/
theorem normalize_total_pure (v : Val) :
    (hasResolve v = true → _normalize_dependency v = v) ∧
    (∀ s : String, v = .str s → _normalize_dependency v = .ref s) ∧
    (hasResolve v = false → isStr v = false → _normalize_dependency v = .value v) := by
  refine ⟨fun h => ?_, fun s hs => ?_, fun h1 h2 => ?_⟩
  · cases v <;> simp_all [hasResolve, _normalize_dependency]
  · subst hs; rfl
  · cases v <;> simp_all [hasResolve, isStr, _normalize_dependency]

/-- Witness for C4 at concrete inputs: a Reference passes through unchanged,
a string becomes the Reference on its path, an opaque value is wrapped in a
Value. -/
theorem normalize_total_pure_witness :
    _normalize_dependency (.ref "x") = .ref "x" ∧
    _normalize_dependency (.str "a") = .ref "a" ∧
    _normalize_dependency (.base 3) = .value (.base 3) :=
  ⟨(normalize_total_pure (.ref "x")).1 rfl,
   (normalize_total_pure (.str "a")).2.1 "a" rfl,
   (normalize_total_pure (.base 3)).2.2 rfl rfl⟩

/-- Claim C10: `inject(factory, container)` with no positional and no named
raw arguments calls the factory exactly once with zero arguments
(`factoryCalls = [[]]`), returns the factory's result unmodified, and
performs no attribute writes. -/
theorem inject_no_spec (target_factory : List Val → Except Err Val) (container : Val) :
    inject target_factory container [] [] =
      { result := target_factory [], factoryCalls := [[]], setattrs := [] } := by
  cases h : target_factory [] <;> simp [inject, resolveEach, h]

/-- Claim C9: Reference resolution is compositional: for every container `C`
exposing an attribute `a` which in turn exposes `b`, resolving
`Reference("a.b")` against `C` yields the same value as resolving
`Reference("b")` against the value of `C`'s attribute `a`. -/
theorem reference_resolve_compositional
    (cid aid : Nat) (cattrs aattrs : List (String × Val)) (b : Val)
    (ha : lookupAttr cattrs "a" = some (.obj aid aattrs))
    (hb : lookupAttr aattrs "b" = some b) :
    dresolve (.ref "a.b") (.obj cid cattrs) = .ok (b, 2) ∧
    dresolve (.ref "b") (.obj aid aattrs) = .ok (b, 1) := by
  have hab : splitDot "a.b" = ["a", "b"] := rfl
  have hbs : splitDot "b" = ["b"] := rfl
  constructor
  · show refWalk (splitDot "a.b") (.obj cid cattrs) 0 = .ok (b, 2)
    rw [hab]
    simp [refWalk, getattr, ha, hb]
  · show refWalk (splitDot "b") (.obj aid aattrs) 0 = .ok (b, 1)
    rw [hbs]
    simp [refWalk, getattr, hb]

/-- Witness for C9 at a concrete container: `C = obj 0 {a : obj 1 {b : 5}}`;
both resolutions yield the value `5`. -/
theorem reference_resolve_compositional_witness :
    dresolve (.ref "a.b") (.obj 0 [("a", .obj 1 [("b", .base 5)])]) = .ok (.base 5, 2) ∧
    dresolve (.ref "b") (.obj 1 [("b", .base 5)]) = .ok (.base 5, 1) :=
  reference_resolve_compositional 0 1 [("a", .obj 1 [("b", .base 5)])]
    [("b", .base 5)] (.base 5) rfl rfl

/-- Claim C5: `inject(factory, C, "missing.path")` against a container with
no attribute named `missing` raises `ReferenceNotFound` and the factory is
never called (positional resolutions are forced before the factory call). -/
theorem inject_missing_reference
    (target_factory : List Val → Except Err Val) (cid : Nat)
    (cattrs : List (String × Val))
    (h : lookupAttr cattrs "missing" = none) :
    inject target_factory (.obj cid cattrs) [.str "missing.path"] [] =
      { result := .error .referenceNotFound, factoryCalls := [], setattrs := [] } := by
  have hsplit : splitDot "missing.path" = ["missing", "path"] := rfl
  have h1 : resolveOne (.str "missing.path") (Val.obj cid cattrs) =
      .error .referenceNotFound := by
    show refWalk (splitDot "missing.path") (Val.obj cid cattrs) 0 = _
    rw [hsplit]
    simp [refWalk, getattr, h]
  have hres : resolveEach [.str "missing.path"] (Val.obj cid cattrs) =
      .error .referenceNotFound := by
    rw [resolveEach_cons, h1]
  simp [inject, hres]

/-- Witness for C5 at a concrete input: an attribute-less container and a
factory producing an opaque value. -/
theorem inject_missing_reference_witness :
    inject (fun _ => .ok (.base 0)) (.obj 0 []) [.str "missing.path"] [] =
      { result := .error .referenceNotFound, factoryCalls := [], setattrs := [] } :=
  inject_missing_reference (fun _ => .ok (.base 0)) 0 [] rfl

/-- Unfolding of `inject` with an empty named spec (the only spec shape that
survives the attribute-normalization step). -/
theorem inject_empty_eq (target_factory : List Val → Except Err Val)
    (container : Val) (arg_spec : List Val) :
    inject target_factory container arg_spec [] =
      match resolveEach arg_spec container with
      | .error e => { result := .error e, factoryCalls := [], setattrs := [] }
      | .ok (args, _) =>
        match target_factory args with
        | .error e => { result := .error e, factoryCalls := [args], setattrs := [] }
        | .ok target =>
          { result := .ok target, factoryCalls := [args], setattrs := [] } := rfl

/-- A successful `inject` with an empty named spec invoked its factory
exactly once. -/
theorem inject_ok_one_call (target_factory : List Val → Except Err Val)
    (container : Val) (arg_spec : List Val) (v : Val)
    (h : (inject target_factory container arg_spec []).result = .ok v) :
    (inject target_factory container arg_spec []).factoryCalls.length = 1 := by
  rw [inject_empty_eq] at h ⊢
  cases hres : resolveEach arg_spec container with
  | error e => rw [hres] at h; simp at h
  | ok p =>
    obtain ⟨args, n⟩ := p
    cases htf : target_factory args <;> simp [htf]

/-- A cache hit in `Descriptor.__get__` returns the stored object and leaves
the state untouched: no injection, no factory call. -/
theorem descGet_hit (target_factory : Nat → List Val → Except Err Val)
    (arg_spec : List Val) (i : Instance) (st : DescState) (v : Val)
    (hhit : lookupCache st.cache i.key = some v) :
    descGet target_factory arg_spec [] (some i) st = (.ok (.value v), st) := by
  simp [descGet, hhit]

/-- A cache miss in `Descriptor.__get__` whose injection succeeds caches the
new object under the instance's dictionary key and records one factory
invocation. -/
theorem descGet_miss_ok (target_factory : Nat → List Val → Except Err Val)
    (arg_spec : List Val) (i : Instance) (st : DescState) (v : Val)
    (hmiss : lookupCache st.cache i.key = none)
    (hok : (inject (target_factory st.factoryCount) (Val.obj i.iid i.attrs)
      arg_spec []).result = .ok v) :
    descGet target_factory arg_spec [] (some i) st =
      (.ok (.value v),
       { cache := (i.key, v) :: st.cache, factoryCount := st.factoryCount + 1 }) := by
  have hlen := inject_ok_one_call _ _ _ _ hok
  simp only [descGet, hmiss, hok, hlen]

/-- A cache miss in `Descriptor.__get__` whose injection raises propagates
the exception and caches nothing. -/
theorem descGet_miss_error (target_factory : Nat → List Val → Except Err Val)
    (arg_spec : List Val) (attr_spec : List (String × Val))
    (i : Instance) (st : DescState) (e : Err)
    (hmiss : lookupCache st.cache i.key = none)
    (herr : (inject (target_factory st.factoryCount) (Val.obj i.iid i.attrs)
      arg_spec attr_spec).result = .error e) :
    descGet target_factory arg_spec attr_spec (some i) st =
      (.error e,
       { cache := st.cache,
         factoryCount := st.factoryCount +
           (inject (target_factory st.factoryCount) (Val.obj i.iid i.attrs)
             arg_spec attr_spec).factoryCalls.length }) := by
  simp [descGet, hmiss, herr]

/-- Claim C6: for every owning instance, two reads of the same lazy-accessor
attribute return the identical object (the second read returns the cached
entry, so both reads yield the very same `v`) and the underlying factory is
invoked exactly once across both reads; reading through the class itself
(`instance is None`) returns the accessor object, not a resolved value. -/
theorem desc_two_reads_memoize
    (target_factory : Nat → List Val → Except Err Val) (arg_spec : List Val)
    (i : Instance) (v : Val)
    (h : (inject (target_factory 0) (Val.obj i.iid i.attrs) arg_spec []).result =
      .ok v) :
    ∃ st1 : DescState,
      descGet target_factory arg_spec [] (some i) ⟨[], 0⟩ = (.ok (.value v), st1) ∧
      descGet target_factory arg_spec [] (some i) st1 = (.ok (.value v), st1) ∧
      st1.factoryCount = 1 ∧
      (∀ st : DescState,
        descGet target_factory arg_spec [] none st = (.ok .descriptor, st)) := by
  refine ⟨⟨[(i.key, v)], 1⟩, ?_, ?_, rfl, fun st => rfl⟩
  · exact descGet_miss_ok target_factory arg_spec i ⟨[], 0⟩ v rfl h
  · refine descGet_hit target_factory arg_spec i _ v ?_
    simp [lookupCache]

/-- Witness for C6 at a concrete input: an attribute-less owning instance
and a factory whose product records the invocation number; both reads
return the object built by invocation 0 and the count stays at 1. -/
theorem desc_two_reads_memoize_witness :
    ∃ st1 : DescState,
      descGet (fun n _ => .ok (.base n)) [] [] (some ⟨1, 1, []⟩) ⟨[], 0⟩ =
        (.ok (.value (.base 0)), st1) ∧
      descGet (fun n _ => .ok (.base n)) [] [] (some ⟨1, 1, []⟩) st1 =
        (.ok (.value (.base 0)), st1) ∧
      st1.factoryCount = 1 ∧
      (∀ st : DescState,
        descGet (fun n _ => .ok (.base n)) [] [] none st = (.ok .descriptor, st)) :=
  desc_two_reads_memoize (fun n _ => .ok (.base n)) [] ⟨1, 1, []⟩ (.base 0) rfl

/-- Claim C7: if the target factory raises during `inject`, the exception
propagates to the caller unchanged, no attribute is assigned, and when the
injection was triggered through the lazy accessor nothing is cached for the
owning instance (the cache is exactly as before the read). -/
theorem inject_factory_error_propagates :
    (∀ (target_factory : List Val → Except Err Val) (container : Val)
       (arg_spec args : List Val) (n : Nat) (e : Err),
      resolveEach arg_spec container = .ok (args, n) →
      target_factory args = .error e →
      inject target_factory container arg_spec [] =
        { result := .error e, factoryCalls := [args], setattrs := [] }) ∧
    (∀ (target_factory : Nat → List Val → Except Err Val) (arg_spec : List Val)
       (i : Instance) (st : DescState) (args : List Val) (n : Nat) (e : Err),
      lookupCache st.cache i.key = none →
      resolveEach arg_spec (Val.obj i.iid i.attrs) = .ok (args, n) →
      target_factory st.factoryCount args = .error e →
      descGet target_factory arg_spec [] (some i) st =
        (.error e, { cache := st.cache, factoryCount := st.factoryCount + 1 })) := by
  have hinj : ∀ (target_factory : List Val → Except Err Val) (container : Val)
      (arg_spec args : List Val) (n : Nat) (e : Err),
      resolveEach arg_spec container = .ok (args, n) →
      target_factory args = .error e →
      inject target_factory container arg_spec [] =
        { result := .error e, factoryCalls := [args], setattrs := [] } := by
    intro tf container arg_spec args n e hres htf
    rw [inject_empty_eq, hres]
    simp [htf]
  refine ⟨hinj, fun tf arg_spec i st args n e hmiss hres htf => ?_⟩
  have h1 := hinj (tf st.factoryCount) (Val.obj i.iid i.attrs) arg_spec args n e hres htf
  have h2 : (inject (tf st.factoryCount) (Val.obj i.iid i.attrs) arg_spec []).result =
      .error e := by rw [h1]
  have h3 := descGet_miss_error tf arg_spec [] i st e hmiss h2
  rw [h3, h1]
  rfl

/-- Witness for C7 at a concrete input: a factory that always raises; the
error surfaces unchanged from `inject` and from the accessor read, with no
attribute write and an unchanged (empty) cache. -/
theorem inject_factory_error_propagates_witness :
    inject (fun _ => .error (.other 9)) (.obj 0 []) [] [] =
      { result := .error (.other 9), factoryCalls := [[]], setattrs := [] } ∧
    descGet (fun _ _ => .error (.other 9)) [] [] (some ⟨1, 1, []⟩) ⟨[], 0⟩ =
      (.error (.other 9), { cache := [], factoryCount := 1 }) :=
  ⟨inject_factory_error_propagates.1 (fun _ => .error (.other 9)) (.obj 0 []) [] [] 0
      (.other 9) rfl rfl,
   inject_factory_error_propagates.2 (fun _ _ => .error (.other 9)) [] ⟨1, 1, []⟩
      ⟨[], 0⟩ [] 0 (.other 9) rfl rfl rfl⟩

/-- Claim C2 (counterexample): the cache of the lazy accessor is NOT keyed by
owning-instance identity but by the owning instance as a dictionary key
(`self.cache[instance]`, i.e. `__hash__`/`__eq__`). Two distinct owning
instances (identities 1 and 2) that compare equal (same dictionary key 5):
the first read on instance 1 injects (factory invocation 0) and caches under
key 5; the first read on instance 2 then performs NO injection and creates
NO cache entry of its own — it returns instance 1's object, with the state
(one cache entry, one factory invocation) unchanged. -/
theorem desc_equal_instances_share_entry :
    descGet (fun n _ => .ok (.base n)) [] [] (some ⟨1, 5, []⟩) ⟨[], 0⟩ =
      (.ok (.value (.base 0)), ⟨[(5, .base 0)], 1⟩) ∧
    descGet (fun n _ => .ok (.base n)) [] [] (some ⟨2, 5, []⟩) ⟨[(5, .base 0)], 1⟩ =
      (.ok (.value (.base 0)), ⟨[(5, .base 0)], 1⟩) :=
  ⟨rfl, rfl⟩

/-- Claim C2 as amended: the cache is keyed by the owning instance as a
dictionary key (equality/hash, which coincides with identity for instances
of classes with default identity-based equality): for every two owning
instances with distinct dictionary keys, a first read on each performs its
own injection and creates its own cache entry, and each entry is created at
most once (subsequent reads return the cached object and leave the state
unchanged). -/
theorem desc_cache_keyed_by_dict_key
    (target_factory : Nat → List Val → Except Err Val) (arg_spec : List Val)
    (i1 i2 : Instance) (v1 v2 : Val)
    (hkey : i1.key ≠ i2.key)
    (h1 : (inject (target_factory 0) (Val.obj i1.iid i1.attrs) arg_spec []).result =
      .ok v1)
    (h2 : (inject (target_factory 1) (Val.obj i2.iid i2.attrs) arg_spec []).result =
      .ok v2) :
    ∃ st1 st2 : DescState,
      descGet target_factory arg_spec [] (some i1) ⟨[], 0⟩ = (.ok (.value v1), st1) ∧
      descGet target_factory arg_spec [] (some i2) st1 = (.ok (.value v2), st2) ∧
      st1.cache = [(i1.key, v1)] ∧ st1.factoryCount = 1 ∧
      st2.cache = [(i2.key, v2), (i1.key, v1)] ∧ st2.factoryCount = 2 ∧
      descGet target_factory arg_spec [] (some i1) st2 = (.ok (.value v1), st2) ∧
      descGet target_factory arg_spec [] (some i2) st2 = (.ok (.value v2), st2) := by
  refine ⟨⟨[(i1.key, v1)], 1⟩, ⟨[(i2.key, v2), (i1.key, v1)], 2⟩,
    ?_, ?_, rfl, rfl, rfl, rfl, ?_, ?_⟩
  · exact descGet_miss_ok target_factory arg_spec i1 ⟨[], 0⟩ v1 rfl h1
  · refine descGet_miss_ok target_factory arg_spec i2 ⟨[(i1.key, v1)], 1⟩ v2 ?_ h2
    simp [lookupCache, hkey, Ne.symm hkey]
  · refine descGet_hit target_factory arg_spec i1 _ v1 ?_
    simp [lookupCache, hkey, Ne.symm hkey]
  · refine descGet_hit target_factory arg_spec i2 _ v2 ?_
    simp [lookupCache]

/-- Witness for the amended C2 at concrete inputs: instances with identities
1 and 2 using default identity-based equality (dictionary keys 1 and 2); each
first read injects (invocations 0 and 1) and caches its own object. -/
theorem desc_cache_keyed_by_dict_key_witness :
    ∃ st1 st2 : DescState,
      descGet (fun n _ => .ok (.base n)) [] [] (some ⟨1, 1, []⟩) ⟨[], 0⟩ =
        (.ok (.value (.base 0)), st1) ∧
      descGet (fun n _ => .ok (.base n)) [] [] (some ⟨2, 2, []⟩) st1 =
        (.ok (.value (.base 1)), st2) ∧
      st1.cache = [(1, .base 0)] ∧ st1.factoryCount = 1 ∧
      st2.cache = [(2, .base 1), (1, .base 0)] ∧ st2.factoryCount = 2 ∧
      descGet (fun n _ => .ok (.base n)) [] [] (some ⟨1, 1, []⟩) st2 =
        (.ok (.value (.base 0)), st2) ∧
      descGet (fun n _ => .ok (.base n)) [] [] (some ⟨2, 2, []⟩) st2 =
        (.ok (.value (.base 1)), st2) :=
  desc_cache_keyed_by_dict_key (fun n _ => .ok (.base n)) [] ⟨1, 1, []⟩ ⟨2, 2, []⟩
    (.base 0) (.base 1) (by decide) rfl rfl

/-- A raw value that neither exposes `resolve` nor is a string normalizes to
the `Value` wrapping it. -/
theorem normalize_plain (x : Val) (h1 : hasResolve x = false) (h2 : isStr x = false) :
    _normalize_dependency x = .value x := by
  cases x <;> simp_all [hasResolve, isStr, _normalize_dependency]

/-- Resolving a sequence all of whose entries neither expose `resolve` nor
are strings leaves every entry in place (each normalizes to a `Value`, which
resolves to its payload) and performs no Reference lookup at all. -/
theorem resolveEach_plain_values (entries : List Val) (c : Val)
    (h : entries.all (fun e => !hasResolve e && !isStr e) = true) :
    resolveEach entries c = .ok (entries, 0) ∧
    ∀ e ∈ entries, _normalize_dependency e = .value e := by
  induction entries with
  | nil => exact ⟨rfl, by simp⟩
  | cons e rest ih =>
    simp only [List.all_cons, Bool.and_eq_true] at h
    obtain ⟨⟨he1, he2⟩, hrest⟩ := h
    have he1' : hasResolve e = false := by simpa using he1
    have he2' : isStr e = false := by simpa using he2
    have ihr := ih hrest
    have hstep : resolveOne e c = .ok (e, 0) := by
      show dresolve (_normalize_dependency e) c = .ok (e, 0)
      rw [normalize_plain e he1' he2']
      rfl
    refine ⟨?_, ?_⟩
    · rw [resolveEach_cons, hstep, ihr.1]
    · intro x hx
      rcases List.mem_cons.mp hx with hx | hx
      · subst hx; exact normalize_plain x he1' he2'
      · exact ihr.2 x hx

/-- Claim C3 (counterexample): container `C` has attributes `a = "b"` and
`b = 42`. The first resolve of the List `[ "a" ]` against `C` succeeds and
replaces the entry with the string `"b"`. A second resolve of the very same
List instance then performs one Reference lookup (count 1, not 0): the
string entry is normalized to a `Reference`, not a `Value`, and is looked up
again, yielding `[42]`. -/
theorem list_second_resolve_does_lookup :
    dresolve (.vlist 1 [.str "a"]) (.obj 0 [("a", .str "b"), ("b", .base 42)]) =
      .ok (.vlist 1 [.str "b"], 1) ∧
    dresolve (.vlist 1 [.str "b"]) (.obj 0 [("a", .str "b"), ("b", .base 42)]) =
      .ok (.vlist 1 [.base 42], 1) ∧
    _normalize_dependency (.str "b") = .ref "b" :=
  ⟨rfl, rfl, rfl⟩

/-- Claim C3 as amended: for every List definition whose first resolve
against a container succeeded AND whose resolved entries neither are strings
nor expose `resolve`, a second resolve of the same List instance performs no
Reference lookups: every entry is normalized to a `Value` on the second pass
and the list comes back unchanged. (Without that proviso the claim fails: a
resolved entry that is a string is renormalized to a `Reference` and looked
up again, see the counterexample.) -/
theorem list_second_resolve_no_lookups
    (lid : Nat) (entries entries' : List Val) (c : Val) (n : Nat)
    (h1 : dresolve (.vlist lid entries) c = .ok (.vlist lid entries', n))
    (h2 : entries'.all (fun e => !hasResolve e && !isStr e) = true) :
    dresolve (.vlist lid entries') c = .ok (.vlist lid entries', 0) ∧
    ∀ e ∈ entries', _normalize_dependency e = .value e := by
  have hp := resolveEach_plain_values entries' c h2
  exact ⟨by simp [dresolve, hp.1], hp.2⟩

/-- Witness for the amended C3 at a concrete input: the List `[ "a" ]`
resolved against a container with `a = 7`; the second resolve returns the
same list `[7]` with zero Reference lookups. -/
theorem list_second_resolve_no_lookups_witness :
    dresolve (.vlist 3 [.base 7]) (.obj 0 [("a", .base 7)]) =
      .ok (.vlist 3 [.base 7], 0) :=
  (list_second_resolve_no_lookups 3 [.str "a"] [.base 7] (.obj 0 [("a", .base 7)]) 1
    rfl rfl).1

/-- Elimination of a successful `resolveEach` run: the resolved sequence has
the same length and, position by position, each output entry is the
normalize-and-resolve image of the input entry at the same index. -/
theorem resolveEach_ok_elim (entries : List Val) (c : Val) :
    ∀ entries' n, resolveEach entries c = .ok (entries', n) →
      entries'.length = entries.length ∧
      ∀ j (hj : j < entries.length) (hj' : j < entries'.length),
        ∃ k, resolveOne (entries.get ⟨j, hj⟩) c = .ok (entries'.get ⟨j, hj'⟩, k) := by
  induction entries with
  | nil =>
    intro entries' n h
    simp [resolveEach] at h
    obtain ⟨h1, h2⟩ := h
    subst h1
    exact ⟨rfl, fun j hj _ => absurd hj (Nat.not_lt_zero j)⟩
  | cons e rest ih =>
    intro entries' n h
    rw [resolveEach_cons] at h
    cases hstep : resolveOne e c with
    | error err => rw [hstep] at h; simp at h
    | ok p =>
      obtain ⟨v, k⟩ := p
      rw [hstep] at h
      cases hrest : resolveEach rest c with
      | error err => rw [hrest] at h; simp at h
      | ok q =>
        obtain ⟨vs, m⟩ := q
        rw [hrest] at h
        simp at h
        obtain ⟨hv, hn⟩ := h
        subst hv
        have IH := ih vs m hrest
        refine ⟨by simp [IH.1], fun j hj hj' => ?_⟩
        cases j with
        | zero => exact ⟨k, hstep⟩
        | succ j =>
          have hj2 : j < rest.length := by simpa using hj
          have hj2' : j < vs.length := by simpa using hj'
          obtain ⟨kk, hk⟩ := IH.2 j hj2 hj2'
          exact ⟨kk, hk⟩

/-- Elimination of a successful `resolveKVs` run: the key sequence is
unchanged and, position by position, each stored value is replaced by its
normalize-and-resolve image. -/
theorem resolveKVs_ok_elim (pairs : List (String × Val)) (c : Val) :
    ∀ pairs' m, resolveKVs pairs c = .ok (pairs', m) →
      pairs'.map Prod.fst = pairs.map Prod.fst ∧
      ∀ j (hj : j < pairs.length) (hj' : j < pairs'.length),
        ∃ k, resolveOne (pairs.get ⟨j, hj⟩).2 c = .ok ((pairs'.get ⟨j, hj'⟩).2, k) := by
  induction pairs with
  | nil =>
    intro pairs' m h
    simp [resolveKVs] at h
    obtain ⟨h1, h2⟩ := h
    subst h1
    exact ⟨rfl, fun j hj _ => absurd hj (Nat.not_lt_zero j)⟩
  | cons kv rest ih =>
    obtain ⟨key, e⟩ := kv
    intro pairs' m h
    rw [resolveKVs_cons] at h
    cases hstep : resolveOne e c with
    | error err => rw [hstep] at h; simp at h
    | ok p =>
      obtain ⟨v, k⟩ := p
      rw [hstep] at h
      cases hrest : resolveKVs rest c with
      | error err => rw [hrest] at h; simp at h
      | ok q =>
        obtain ⟨kvs, mm⟩ := q
        rw [hrest] at h
        simp at h
        obtain ⟨hv, hn⟩ := h
        subst hv
        have IH := ih kvs mm hrest
        refine ⟨by simp [IH.1], fun j hj hj' => ?_⟩
        cases j with
        | zero => exact ⟨k, hstep⟩
        | succ j =>
          have hj2 : j < rest.length := by simpa using hj
          have hj2' : j < kvs.length := by simpa using hj'
          obtain ⟨kk, hk⟩ := IH.2 j hj2 hj2'
          exact ⟨kk, hk⟩

/-- Claim C8: resolving a List of length n returns the very same sequence
object (same identity tag `lid`), of the same length, with the entry at each
index replaced in place by its resolved value; resolving a Dict returns the
same mapping object (same identity tag `did`) with its key sequence
unchanged and each stored value replaced in place by its resolved value. -/
theorem list_dict_resolve_in_place
    (lid did : Nat) (entries entries' : List Val)
    (pairs pairs' : List (String × Val)) (c : Val) (n m : Nat)
    (hl : resolveEach entries c = .ok (entries', n))
    (hd : resolveKVs pairs c = .ok (pairs', m)) :
    dresolve (.vlist lid entries) c = .ok (.vlist lid entries', n) ∧
    entries'.length = entries.length ∧
    (∀ j (hj : j < entries.length) (hj' : j < entries'.length),
      ∃ k, resolveOne (entries.get ⟨j, hj⟩) c = .ok (entries'.get ⟨j, hj'⟩, k)) ∧
    dresolve (.vdict did pairs) c = .ok (.vdict did pairs', m) ∧
    pairs'.map Prod.fst = pairs.map Prod.fst ∧
    (∀ j (hj : j < pairs.length) (hj' : j < pairs'.length),
      ∃ k, resolveOne (pairs.get ⟨j, hj⟩).2 c = .ok ((pairs'.get ⟨j, hj'⟩).2, k)) := by
  have hL := resolveEach_ok_elim entries c entries' n hl
  have hD := resolveKVs_ok_elim pairs c pairs' m hd
  exact ⟨by simp [dresolve, hl], hL.1, hL.2, by simp [dresolve, hd], hD.1, hD.2⟩

/-- Witness for C8 at concrete inputs: a two-entry List (a reference and a
wrapped value) and a one-entry Dict resolved against `C = obj {a : 5}`; both
come back as the same objects (tags 2 and 3) with entries resolved in place
and keys unchanged. -/
theorem list_dict_resolve_in_place_witness :
    dresolve (.vlist 2 [.str "a", .value (.base 1)]) (.obj 0 [("a", .base 5)]) =
      .ok (.vlist 2 [.base 5, .base 1], 1) ∧
    dresolve (.vdict 3 [("k", .str "a")]) (.obj 0 [("a", .base 5)]) =
      .ok (.vdict 3 [("k", .base 5)], 1) ∧
    ([("k", Val.base 5)].map Prod.fst = [("k", Val.str "a")].map Prod.fst) :=
  have T := list_dict_resolve_in_place 2 3 [.str "a", .value (.base 1)]
    [.base 5, .base 1] [("k", .str "a")] [("k", .base 5)]
    (.obj 0 [("a", .base 5)]) 1 1 rfl rfl
  ⟨T.1, T.2.2.2.1, T.2.2.2.2.1⟩

end AuroraDI
